import Mathlib

/-!
# Verification of the SSE2 lossless-encoder DSP kernels

Shallow embedding of `src/dsp/lossless_enc_sse2.c`: the subtract-green
transform, the color transform, and the histogram accumulation primitive,
together with proofs of the stated properties.

Pixels are 32-bit ARGB words modelled as `Nat` values below `2^32`
(byte 0 = blue, byte 1 = green, byte 2 = red, byte 3 = alpha).
A 128-bit SSE register is modelled as a list of four 32-bit words; each
intrinsic is modelled lane-wise exactly as the instruction behaves.
-/

set_option maxHeartbeats 1000000

namespace WebP

/-! ## SSE2 intrinsics

A 128-bit register is a list of four 32-bit words (`Nat < 2^32`), word 0
being the least significant.  Each intrinsic is modelled lane for lane.
All numerals are decimal: `65536 = 2^16`, `4294967296 = 2^32`,
`16777216 = 2^24`.
-/

/-- Per-byte wrap-around subtraction inside one 32-bit word
(one lane of `_mm_sub_epi8`). -/
def sub_epi8_32 (x y : Nat) : Nat :=
  (x % 256 + 256 - y % 256) % 256
  + (x / 256 % 256 + 256 - y / 256 % 256) % 256 * 256
  + (x / 65536 % 256 + 256 - y / 65536 % 256) % 256 * 65536
  + (x / 16777216 % 256 + 256 - y / 16777216 % 256) % 256 * 16777216

/-- Per-byte wrap-around addition inside one 32-bit word
(one lane of `_mm_add_epi8`). -/
def add_epi8_32 (x y : Nat) : Nat :=
  (x % 256 + y % 256) % 256
  + (x / 256 % 256 + y / 256 % 256) % 256 * 256
  + (x / 65536 % 256 + y / 65536 % 256) % 256 * 65536
  + (x / 16777216 % 256 + y / 16777216 % 256) % 256 * 16777216

/-- Signed interpretation of a 16-bit lane. -/
def toInt16 (n : Nat) : Int :=
  if n % 65536 < 32768 then (n % 65536 : Int) else (n % 65536 : Int) - 65536

/-- `_mm_mulhi_epi16` on one 16-bit lane: the high 16 bits of the signed
32-bit product, as an unsigned 16-bit value.  (`%` on `Int` is `Int.emod`,
whose result is non-negative here.) -/
def mulhi16 (u v : Nat) : Nat :=
  ((toInt16 u * toInt16 v) % 4294967296).toNat / 65536

/-- `_mm_and_si128`. -/
def mm_and_si128 (x y : List Nat) : List Nat := List.zipWith (· &&& ·) x y

/-- `_mm_or_si128`. -/
def mm_or_si128 (x y : List Nat) : List Nat := List.zipWith (· ||| ·) x y

/-- `_mm_slli_epi32`. -/
def mm_slli_epi32 (x : List Nat) (n : Nat) : List Nat :=
  x.map (fun w => w * 2 ^ n % 4294967296)

/-- `_mm_srli_epi32`. -/
def mm_srli_epi32 (x : List Nat) (n : Nat) : List Nat :=
  x.map (fun w => w / 2 ^ n)

/-- `_mm_slli_epi16`: shift each 16-bit lane left. -/
def mm_slli_epi16 (x : List Nat) (n : Nat) : List Nat :=
  x.map (fun w => w % 65536 * 2 ^ n % 65536 + w / 65536 % 65536 * 2 ^ n % 65536 * 65536)

/-- `_mm_mulhi_epi16`: signed multiply-high on each 16-bit lane. -/
def mm_mulhi_epi16 (x y : List Nat) : List Nat :=
  List.zipWith
    (fun w v => mulhi16 (w % 65536) (v % 65536) + mulhi16 (w / 65536 % 65536) (v / 65536 % 65536) * 65536)
    x y

/-- `_mm_sub_epi8`. -/
def mm_sub_epi8 (x y : List Nat) : List Nat := List.zipWith sub_epi8_32 x y

/-- `_mm_add_epi8`. -/
def mm_add_epi8 (x y : List Nat) : List Nat := List.zipWith add_epi8_32 x y

/-- `_mm_add_epi32`. -/
def mm_add_epi32 (x y : List Nat) : List Nat :=
  List.zipWith (fun a b => (a + b) % 4294967296) x y

/-- `_mm_set1_epi32`. -/
def mm_set1_epi32 (c : Nat) : List Nat := [c, c, c, c]

/-- `_mm_set_epi16 e7 e6 e5 e4 e3 e2 e1 e0` (`e0` is the least significant
lane, exactly as the intrinsic's argument order). -/
def mm_set_epi16 (e7 e6 e5 e4 e3 e2 e1 e0 : Nat) : List Nat :=
  [e0 % 65536 + e1 % 65536 * 65536, e2 % 65536 + e3 % 65536 * 65536,
   e4 % 65536 + e5 % 65536 * 65536, e6 % 65536 + e7 % 65536 * 65536]

/-- `_mm_shufflelo_epi16` with immediate `_MM_SHUFFLE(2, 2, 0, 0)`:
lanes 0-3 become (lane0, lane0, lane2, lane2); lanes 4-7 are untouched. -/
def mm_shufflelo_epi16_2200 : List Nat → List Nat
  | [w0, w1, w2, w3] =>
      [w0 % 65536 + w0 % 65536 * 65536, w1 % 65536 + w1 % 65536 * 65536, w2, w3]
  | v => v

/-- `_mm_shufflehi_epi16` with immediate `_MM_SHUFFLE(2, 2, 0, 0)`:
lanes 4-7 become (lane4, lane4, lane6, lane6); lanes 0-3 are untouched. -/
def mm_shufflehi_epi16_2200 : List Nat → List Nat
  | [w0, w1, w2, w3] =>
      [w0, w1, w2 % 65536 + w2 % 65536 * 65536, w3 % 65536 + w3 % 65536 * 65536]
  | v => v

/-! ## Data model -/

/-- Modelled from the spec: the multiplier set of the color transform —
"three signed fixed-point coefficients (green→red, green→blue, red→blue)".
The struct itself (`VP8LMultipliers`) is declared in `lossless.h`, which is
not under `src/`; only the SSE2 translation unit is.  Coefficients are
modelled as unbounded integers; the code itself truncates them (`C10`). -/
structure VP8LMultipliers where
  green_to_red_ : Int
  green_to_blue_ : Int
  red_to_blue_ : Int

/-- The `CST` macro of `TransformColor`:
`(((int16_t)(m->X << 8)) >> 5)` — truncate `X << 8` to a signed 16-bit
value, then arithmetic-shift right by 5.  (`/` on `Int` is `Int.ediv`,
which is floor division for the positive divisor 32, matching the
arithmetic shift.) -/
def CST (x : Int) : Int :=
  ((x * 256 + 32768) % 65536 - 32768) / 32

/-- Bit pattern of a signed value stored in an unsigned 16-bit lane. -/
def lane16 (v : Int) : Nat := (v % 65536).toNat

/-! ## Scalar reference implementations (spec-modelled)

The scalar fallbacks `VP8LSubtractGreenFromBlueAndRed_C` and
`VP8LTransformColor_C` live in `lossless_enc.c` / `lossless.h`, which are
not under `src/`; the SSE2 file only calls them.
-/

/-- Modelled from the spec (§4.1): per-pixel subtract-green — "replace each
pixel's red and blue channels with `(channel − green) mod 256`, leaving
alpha and green unchanged". -/
def subtractGreenPixel (p : Nat) : Nat :=
  let g := p / 256 % 256
  p / 16777216 % 256 * 16777216
  + (p / 65536 % 256 + 256 - g) % 256 * 65536
  + g * 256
  + (p % 256 + 256 - g) % 256

/-- Modelled from the spec: the scalar reference
`VP8LSubtractGreenFromBlueAndRed_C` (not under `src/`), which applies the
§4.1 per-pixel subtraction to every pixel of the buffer. -/
def VP8LSubtractGreenFromBlueAndRed_C (argb_data : List Nat) : List Nat :=
  argb_data.map subtractGreenPixel

/-- Modelled from the spec (§4.2, steps 1-6): the per-pixel color
transform.  The green channel, duplicated and pre-shifted by 8 bits, is
multiplied (keeping the high 16 bits) by the green→red and green→blue
multipliers; the red channel pre-shifted by 8 is multiplied the same way by
the red→blue multiplier; the residuals are masked to the red and blue byte
positions and subtracted with 8-bit wrap-around.  §4.2 requires the scalar
fallback to match this arithmetic bit for bit. -/
def transformColorPixel (m : VP8LMultipliers) (p : Nat) : Nat :=
  let b := p % 256
  let g := p / 256 % 256
  let r := p / 65536 % 256
  let a := p / 16777216 % 256
  let dr := mulhi16 (g * 256) (lane16 (CST m.green_to_red_))
  let db1 := mulhi16 (g * 256) (lane16 (CST m.green_to_blue_))
  let db2 := mulhi16 (r * 256) (lane16 (CST m.red_to_blue_))
  a * 16777216
  + (r + 256 - dr % 256) % 256 * 65536
  + g * 256
  + (b + 256 - (db1 % 256 + db2 % 256) % 256) % 256

/-- Modelled from the spec: the scalar reference `VP8LTransformColor_C`
(not under `src/`), which applies the §4.2 per-pixel transform to every
pixel of the buffer. -/
def VP8LTransformColor_C (m : VP8LMultipliers) (argb_data : List Nat) : List Nat :=
  argb_data.map (transformColorPixel m)

/-! ## The SSE2 kernels -/

/-- Body of one iteration of the vector loop of
`SubtractGreenFromBlueAndRed` (lines 28-34 of the source). -/
def sgBlock (in_ : List Nat) : List Nat :=
  let mask := mm_set1_epi32 65280        -- 0x0000ff00
  let in_00g0 := mm_and_si128 in_ mask
  let in_0g00 := mm_slli_epi32 in_00g0 8
  let in_000g := mm_srli_epi32 in_00g0 8
  let in_0g0g := mm_or_si128 in_0g00 in_000g
  mm_sub_epi8 in_ in_0g0g

/-- `SubtractGreenFromBlueAndRed` (SSE2): groups of four pixels through the
vector body while `i + 4 <= num_pixels`, then the scalar fallback on the
remainder.  The buffer is the list; `num_pixels` is its length. -/
def SubtractGreenFromBlueAndRed : List Nat → List Nat
  | p0 :: p1 :: p2 :: p3 :: rest =>
      sgBlock [p0, p1, p2, p3] ++ SubtractGreenFromBlueAndRed rest
  | rest => VP8LSubtractGreenFromBlueAndRed_C rest

/-- Body of one iteration of the vector loop of `TransformColor`
(lines 60-71 of the source). -/
def tcBlock (m : VP8LMultipliers) (in_ : List Nat) : List Nat :=
  let mults_rb := mm_set_epi16
      (lane16 (CST m.green_to_red_)) (lane16 (CST m.green_to_blue_))
      (lane16 (CST m.green_to_red_)) (lane16 (CST m.green_to_blue_))
      (lane16 (CST m.green_to_red_)) (lane16 (CST m.green_to_blue_))
      (lane16 (CST m.green_to_red_)) (lane16 (CST m.green_to_blue_))
  let mults_b2 := mm_set_epi16
      (lane16 (CST m.red_to_blue_)) 0 (lane16 (CST m.red_to_blue_)) 0
      (lane16 (CST m.red_to_blue_)) 0 (lane16 (CST m.red_to_blue_)) 0
  let mask_ag := mm_set1_epi32 4278255360   -- 0xff00ff00
  let mask_rb := mm_set1_epi32 16711935     -- 0x00ff00ff
  let A := mm_and_si128 in_ mask_ag
  let B := mm_shufflelo_epi16_2200 A
  let C := mm_shufflehi_epi16_2200 B
  let D := mm_mulhi_epi16 C mults_rb
  let E := mm_slli_epi16 in_ 8
  let F := mm_mulhi_epi16 E mults_b2
  let G := mm_srli_epi32 F 16
  let H := mm_add_epi8 G D
  let I := mm_and_si128 H mask_rb
  mm_sub_epi8 in_ I

/-- `TransformColor` (SSE2): groups of four pixels through the vector body
while `i + 4 <= num_pixels`, then the scalar fallback on the remainder. -/
def TransformColor (m : VP8LMultipliers) : List Nat → List Nat
  | p0 :: p1 :: p2 :: p3 :: rest =>
      tcBlock m [p0, p1, p2, p3] ++ TransformColor m rest
  | rest => VP8LTransformColor_C m rest

/-! ## Histogram accumulation -/

/-- Modelled from the spec: `NUM_LITERAL_CODES`, the fixed base
literal/length alphabet size (declared in the lossless header, not under
`src/`).  It is a multiple of the 16-counter chunk size, so the vector
loop needs no scalar remainder. -/
def NUM_LITERAL_CODES : Nat := 256

/-- Modelled from the spec: `NUM_LENGTH_CODES`, the length-code part of the
fixed literal/length alphabet (declared in the lossless header, not under
`src/`). -/
def NUM_LENGTH_CODES : Nat := 24

/-- Modelled from the spec: `NUM_DISTANCE_CODES`, the size of the
distance-code array, "small and fixed" (declared in the lossless header,
not under `src/`). -/
def NUM_DISTANCE_CODES : Nat := 40

/-- Modelled from the spec: `VP8LHistogramNumCodes` (declared in the
lossless header, not under `src/`): the literal array's length is
`alphabet_base + extra_region_length(palette_bits)`, where the extension
region holds `2^palette_code_bits` extra symbol slots when a palette is in
use. -/
def VP8LHistogramNumCodes (palette_code_bits : Nat) : Nat :=
  NUM_LITERAL_CODES + NUM_LENGTH_CODES +
    (if palette_code_bits > 0 then 2 ^ palette_code_bits else 0)

/-- Modelled from the spec: the histogram record (declared in the lossless
header, not under `src/`) — four fixed-length channel counter arrays, a
variable-length literal/length array, a distance-code array, and the
palette-size parameter.  Counters are `uint32_t`; we model them as `Nat`
and take `% 2^32` wherever the code adds them. -/
structure VP8LHistogram where
  literal_ : List Nat
  red_ : List Nat
  blue_ : List Nat
  alpha_ : List Nat
  distance_ : List Nat
  palette_code_bits_ : Nat

/-- `AddVector` (SSE2): `out[i] = a[i] + b[i]` in chunks of
`LINE_SIZE = 16` counters, four 128-bit additions per chunk.  The `size`
argument is realised by passing lists of the first `size` counters; the
`assert(size % LINE_SIZE == 0)` precondition appears as a hypothesis in
the lemmas about it. -/
def AddVector (a b : List Nat) : List Nat :=
  if 16 ≤ a.length ∧ 16 ≤ b.length then
    mm_add_epi32 (a.take 4) (b.take 4)
    ++ mm_add_epi32 ((a.drop 4).take 4) ((b.drop 4).take 4)
    ++ mm_add_epi32 ((a.drop 8).take 4) ((b.drop 8).take 4)
    ++ mm_add_epi32 ((a.drop 12).take 4) ((b.drop 12).take 4)
    ++ AddVector (a.drop 16) (b.drop 16)
  else []
termination_by a.length
decreasing_by simp; omega

/-- `AddVectorEq` (SSE2): `out[i] += a[i]`, same chunking as `AddVector`;
the second argument is the current content of `out`. -/
def AddVectorEq (a out : List Nat) : List Nat :=
  if 16 ≤ a.length ∧ 16 ≤ out.length then
    mm_add_epi32 (a.take 4) (out.take 4)
    ++ mm_add_epi32 ((a.drop 4).take 4) ((out.drop 4).take 4)
    ++ mm_add_epi32 ((a.drop 8).take 4) ((out.drop 8).take 4)
    ++ mm_add_epi32 ((a.drop 12).take 4) ((out.drop 12).take 4)
    ++ AddVectorEq (a.drop 16) (out.drop 16)
  else []
termination_by a.length
decreasing_by simp; omega

/-- `HistogramAdd` (SSE2).  `bIsOut` models the pointer identity test
`b != out`: when `true`, the output aliases `b`, so every read of `b`
sees the current output content `out0`; the four channel arrays then go
through the read-modify-write `AddVectorEq` path.  The literal tail
`[NUM_LITERAL_CODES, literal_size)` and the distance array are summed by
the plain scalar loops.  Positions of `out0` beyond what the loops write
keep their old content. -/
def HistogramAdd (bIsOut : Bool) (a b out0 : VP8LHistogram) : VP8LHistogram :=
  let literal_size := VP8LHistogramNumCodes a.palette_code_bits_
  let bb := if bIsOut then out0 else b
  let ch :=
    if bIsOut = false then
      (AddVector (a.literal_.take NUM_LITERAL_CODES) (b.literal_.take NUM_LITERAL_CODES),
       AddVector (a.red_.take NUM_LITERAL_CODES) (b.red_.take NUM_LITERAL_CODES),
       AddVector (a.blue_.take NUM_LITERAL_CODES) (b.blue_.take NUM_LITERAL_CODES),
       AddVector (a.alpha_.take NUM_LITERAL_CODES) (b.alpha_.take NUM_LITERAL_CODES))
    else
      (AddVectorEq (a.literal_.take NUM_LITERAL_CODES) (out0.literal_.take NUM_LITERAL_CODES),
       AddVectorEq (a.red_.take NUM_LITERAL_CODES) (out0.red_.take NUM_LITERAL_CODES),
       AddVectorEq (a.blue_.take NUM_LITERAL_CODES) (out0.blue_.take NUM_LITERAL_CODES),
       AddVectorEq (a.alpha_.take NUM_LITERAL_CODES) (out0.alpha_.take NUM_LITERAL_CODES))
  { literal_ := ch.1
      ++ (List.range (literal_size - NUM_LITERAL_CODES)).map (fun k =>
            (a.literal_.getD (NUM_LITERAL_CODES + k) 0
             + bb.literal_.getD (NUM_LITERAL_CODES + k) 0) % 4294967296)
      ++ out0.literal_.drop literal_size
    red_ := ch.2.1 ++ out0.red_.drop NUM_LITERAL_CODES
    blue_ := ch.2.2.1 ++ out0.blue_.drop NUM_LITERAL_CODES
    alpha_ := ch.2.2.2 ++ out0.alpha_.drop NUM_LITERAL_CODES
    distance_ := (List.range NUM_DISTANCE_CODES).map (fun k =>
        (a.distance_.getD k 0 + bb.distance_.getD k 0) % 4294967296)
      ++ out0.distance_.drop NUM_DISTANCE_CODES
    palette_code_bits_ := out0.palette_code_bits_ }

/-- Element-wise 32-bit sum of two counter lists — the specification-side
notion of "every counter of the output is the sum of the corresponding
counters of the inputs". -/
def zipAdd (a b : List Nat) : List Nat :=
  List.zipWith (fun x y => (x + y) % 4294967296) a b

/-- A histogram is well formed for palette parameter `p` when its arrays
have the lengths the C struct gives them. -/
def Hwf (h : VP8LHistogram) (p : Nat) : Prop :=
  h.palette_code_bits_ = p ∧
  h.literal_.length = VP8LHistogramNumCodes p ∧
  h.red_.length = NUM_LITERAL_CODES ∧
  h.blue_.length = NUM_LITERAL_CODES ∧
  h.alpha_.length = NUM_LITERAL_CODES ∧
  h.distance_.length = NUM_DISTANCE_CODES

/-- An all-zero histogram of the right shape, used as a fresh output. -/
def emptyHistogram (p : Nat) : VP8LHistogram :=
  { literal_ := List.replicate (VP8LHistogramNumCodes p) 0
    red_ := List.replicate NUM_LITERAL_CODES 0
    blue_ := List.replicate NUM_LITERAL_CODES 0
    alpha_ := List.replicate NUM_LITERAL_CODES 0
    distance_ := List.replicate NUM_DISTANCE_CODES 0
    palette_code_bits_ := p }

/-- The spec's `histogramAccumulate(a, b, out)` with a fresh, distinct
output histogram, as one function of the two inputs. -/
def histogramAccumulate (a b : VP8LHistogram) : VP8LHistogram :=
  HistogramAdd false a b (emptyHistogram a.palette_code_bits_)

/-- All counters of a histogram are at most `2^28`. -/
def Hbounded (h : VP8LHistogram) : Prop :=
  (∀ x ∈ h.literal_, x ≤ 268435456) ∧ (∀ x ∈ h.red_, x ≤ 268435456) ∧
  (∀ x ∈ h.blue_, x ≤ 268435456) ∧ (∀ x ∈ h.alpha_, x ≤ 268435456) ∧
  (∀ x ∈ h.distance_, x ≤ 268435456)

/-! ## Bit-mask arithmetic helpers

The SSE2 code applies byte-aligned AND masks to 32-bit words.  These lemmas
characterise `&&&` with a single-byte mask `255 <<< s` and with a two-byte
mask, in terms of `/`, `%` and `*`, so that `omega` can take over afterwards.
-/

/-- AND with a single byte mask `255 <<< s` extracts byte `s/8`. -/
theorem and_byte_mask (x s : Nat) : x &&& (255 <<< s) = x / 2 ^ s % 256 * 2 ^ s := by
  apply Nat.eq_of_testBit_eq
  intro j
  rw [Nat.testBit_and, Nat.testBit_shiftLeft]
  rw [show (255 : Nat) = 2 ^ 8 - 1 by norm_num, Nat.testBit_two_pow_sub_one]
  rw [show x / 2 ^ s % 256 * 2 ^ s = 2 ^ s * (x / 2 ^ s % 256) by ring]
  rw [Nat.testBit_mul_pow_two]
  rw [show (256 : Nat) = 2 ^ 8 by norm_num, Nat.testBit_mod_two_pow]
  rw [show x / 2 ^ s = x >>> s from (Nat.shiftRight_eq_div_pow x s).symm,
    Nat.testBit_shiftRight]
  by_cases hs : s ≤ j
  · rw [show s + (j - s) = j by omega]
    have : j ≥ s := hs
    cases x.testBit j <;> cases h8 : decide (j - s < 8) <;> simp [this, h8]
  · have : ¬ (j ≥ s) := hs
    simp [this]

/-- AND with a two-byte mask `255 <<< s ||| 255 <<< t` extracts the two bytes. -/
theorem and_byte_mask2 (x s t : Nat) (hst : s + 8 ≤ t) :
    x &&& (255 <<< s ||| 255 <<< t) =
      x / 2 ^ s % 256 * 2 ^ s + x / 2 ^ t % 256 * 2 ^ t := by
  rw [Nat.and_or_distrib_left, and_byte_mask, and_byte_mask]
  have hA : x / 2 ^ s % 256 * 2 ^ s < 2 ^ t := by
    have h1 : x / 2 ^ s % 256 < 256 := Nat.mod_lt _ (by norm_num)
    calc x / 2 ^ s % 256 * 2 ^ s < 256 * 2 ^ s := by
          exact (Nat.mul_lt_mul_right (Nat.two_pow_pos s)).mpr h1
      _ = 2 ^ (s + 8) := by rw [Nat.pow_add]; ring
      _ ≤ 2 ^ t := Nat.pow_le_pow_right (by norm_num) hst
  rw [Nat.or_comm, show x / 2 ^ t % 256 * 2 ^ t = 2 ^ t * (x / 2 ^ t % 256) by ring,
    ← Nat.mul_add_lt_is_or hA]
  ring

/-- AND with `0x0000ff00` extracts the green byte (pre-shifted). -/
theorem and_mask_g (x : Nat) : x &&& 65280 = x / 256 % 256 * 256 := by
  have h := and_byte_mask x 8
  norm_num at h
  exact h

/-- AND with `0xff00ff00` extracts the alpha and green bytes in place. -/
theorem and_mask_ag (x : Nat) :
    x &&& 4278255360 = x / 256 % 256 * 256 + x / 16777216 % 256 * 16777216 := by
  have h := and_byte_mask2 x 8 24 (by norm_num)
  rw [show (255 <<< 8 ||| 255 <<< 24 : Nat) = 4278255360 by decide] at h
  norm_num at h
  exact h

/-- AND with `0x00ff00ff` extracts the red and blue bytes in place. -/
theorem and_mask_rb (x : Nat) :
    x &&& 16711935 = x % 256 + x / 65536 % 256 * 65536 := by
  have h := and_byte_mask2 x 0 16 (by norm_num)
  rw [show (255 <<< 0 ||| 255 <<< 16 : Nat) = 16711935 by decide] at h
  norm_num at h
  exact h

/-- OR of two values whose set bits live in the low and high half of a
32-bit word is their sum. -/
theorem or_disjoint_16 (hi lo : Nat) (hlo : lo < 65536) :
    hi * 65536 ||| lo = hi * 65536 + lo := by
  rw [show hi * 65536 = 2 ^ 16 * hi by ring, ← Nat.mul_add_lt_is_or (by omega) hi]


/-! ## Arithmetic facts about the helpers -/

/-- Byte decomposition of a 32-bit word given as two 16-bit lanes. -/
theorem word2_bytes (lo hi : Nat) (hlo : lo < 65536) (hhi : hi < 65536) :
    (lo + hi * 65536) % 256 = lo % 256 ∧
    (lo + hi * 65536) / 256 % 256 = lo / 256 ∧
    (lo + hi * 65536) / 65536 % 256 = hi % 256 ∧
    (lo + hi * 65536) / 16777216 % 256 = hi / 256 := by
  have h1 : (lo + hi * 65536) / 256 = lo / 256 + hi * 256 := by omega
  have h2 : (lo + hi * 65536) / 65536 = hi := by omega
  have h3 : (lo + hi * 65536) / 16777216 = hi / 256 := by omega
  refine ⟨by omega, ?_, ?_, ?_⟩
  · rw [h1]; omega
  · rw [h2]
  · rw [h3]; omega

/-- 16-bit lane decomposition of a 32-bit word. -/
theorem word2_lanes (lo hi : Nat) (hlo : lo < 65536) (hhi : hi < 65536) :
    (lo + hi * 65536) % 65536 = lo ∧ (lo + hi * 65536) / 65536 % 65536 = hi := by
  have h2 : (lo + hi * 65536) / 65536 = hi := by omega
  exact ⟨by omega, by rw [h2]; omega⟩

/-- Bytes 0 and 2 of a 32-bit word given by its four bytes. -/
theorem word4_bytes (b0 b1 b2 b3 : Nat) (h0 : b0 < 256) (h1 : b1 < 256)
    (h2 : b2 < 256) (_h3 : b3 < 256) :
    (b0 + b1 * 256 + b2 * 65536 + b3 * 16777216) % 256 = b0 ∧
    (b0 + b1 * 256 + b2 * 65536 + b3 * 16777216) / 65536 % 256 = b2 := by
  have hd : (b0 + b1 * 256 + b2 * 65536 + b3 * 16777216) / 65536 = b2 + b3 * 256 := by omega
  exact ⟨by omega, by rw [hd]; omega⟩

/-- A multiply-high lane value fits in 16 bits. -/
theorem mulhi16_lt (u v : Nat) : mulhi16 u v < 65536 := by
  unfold mulhi16
  omega

/-- Multiply-high by a zero lane is zero. -/
theorem mulhi16_zero (u : Nat) : mulhi16 u 0 = 0 := by
  unfold mulhi16 toInt16
  norm_num

/-- Closed form of the `CST` macro: only the low 8 bits of the multiplier
matter, read as a signed byte and scaled by 8. -/
theorem CST_eq (x : Int) : CST x = 8 * ((x + 128) % 256 - 128) := by
  unfold CST
  omega

/-- The `CST` value fits in a signed 16-bit lane. -/
theorem CST_bounds (x : Int) : -32768 ≤ CST x ∧ CST x < 32768 := by
  rw [CST_eq]
  omega

/-- Storing a signed 16-bit value in a lane and reading it back is
the identity. -/
theorem toInt16_lane16 (v : Int) (h1 : -32768 ≤ v) (h2 : v < 32768) :
    toInt16 (lane16 v) = v := by
  unfold toInt16 lane16
  by_cases hc : (v % 65536).toNat % 65536 < 32768
  · rw [if_pos hc]; omega
  · rw [if_neg hc]; omega

/-- The lane pattern of a signed value is below `2^16`. -/
theorem lane16_lt (v : Int) : lane16 v < 65536 := by
  unfold lane16
  omega

/-! ## The subtract-green kernel is the per-pixel map -/

/-- One 32-bit lane of the subtract-green vector body equals the scalar
per-pixel subtraction. -/
theorem sgWord (p : Nat) :
    sub_epi8_32 p ((p &&& 65280) * 2 ^ 8 % 4294967296 ||| (p &&& 65280) / 2 ^ 8)
      = subtractGreenPixel p := by
  rw [and_mask_g, show (2 : Nat) ^ 8 = 256 from by norm_num]
  rw [show p / 256 % 256 * 256 * 256 % 4294967296 = p / 256 % 256 * 65536 from by omega]
  rw [show p / 256 % 256 * 256 / 256 = p / 256 % 256 from by omega]
  rw [or_disjoint_16 (p / 256 % 256) (p / 256 % 256) (by omega)]
  simp only [sub_epi8_32, subtractGreenPixel]
  generalize hXg : p / 256 % 256 = X
  have hX : X < 256 := by omega
  rw [show X * 65536 + X = X + X * 65536 from by ring]
  obtain ⟨e1, e2, e3, e4⟩ := word2_bytes X X (by omega) (by omega)
  rw [e1, e2, e3, e4, Nat.mod_eq_of_lt hX, Nat.div_eq_of_lt hX]
  clear e1 e2 e3 e4
  simp only [Nat.sub_zero]
  rw [show (X + 256) % 256 = X from by omega,
    show (p / 16777216 % 256 + 256) % 256 = p / 16777216 % 256 from by omega]
  ring

/-- The vector body of `SubtractGreenFromBlueAndRed` processes its four
pixels exactly like the scalar reference. -/
theorem sgBlock_eq (p0 p1 p2 p3 : Nat) :
    sgBlock [p0, p1, p2, p3] =
      [subtractGreenPixel p0, subtractGreenPixel p1,
       subtractGreenPixel p2, subtractGreenPixel p3] := by
  simp only [sgBlock, mm_set1_epi32, mm_and_si128, mm_slli_epi32,
    mm_srli_epi32, mm_or_si128, mm_sub_epi8, List.zipWith, List.map]
  rw [sgWord p0, sgWord p1, sgWord p2, sgWord p3]

/-- The SSE2 `SubtractGreenFromBlueAndRed` equals the scalar reference
applied to the whole buffer. -/
theorem SubtractGreenFromBlueAndRed_eq_C (xs : List Nat) :
    SubtractGreenFromBlueAndRed xs = VP8LSubtractGreenFromBlueAndRed_C xs := by
  induction xs using SubtractGreenFromBlueAndRed.induct with
  | case1 p0 p1 p2 p3 rest ih =>
      rw [SubtractGreenFromBlueAndRed, sgBlock_eq p0 p1 p2 p3, ih]
      simp [VP8LSubtractGreenFromBlueAndRed_C]
  | case2 rest h =>
      cases rest with
      | nil => rfl
      | cons a t1 =>
        cases t1 with
        | nil => rfl
        | cons b t2 =>
          cases t2 with
          | nil => rfl
          | cons c t3 =>
            cases t3 with
            | nil => rfl
            | cons d t4 => exact (h a b c d t4 rfl).elim

/-! ## The color-transform kernel is the per-pixel map -/

/-- One 32-bit lane of the color-transform vector body (with the three
multiplier lane patterns abstracted as bounded variables) equals the
per-pixel residual subtraction. -/
theorem tcWordGen (p cb cr crb : Nat) (hcb : cb < 65536) (hcr : cr < 65536)
    (hcrb : crb < 65536) :
    sub_epi8_32 p
      (add_epi8_32
          ((mulhi16 ((p % 65536 * 2 ^ 8 % 65536 + p / 65536 % 65536 * 2 ^ 8 % 65536 * 65536) % 65536)
                ((0 % 65536 + crb % 65536 * 65536) % 65536) +
              mulhi16 ((p % 65536 * 2 ^ 8 % 65536 + p / 65536 % 65536 * 2 ^ 8 % 65536 * 65536) / 65536 % 65536)
                  ((0 % 65536 + crb % 65536 * 65536) / 65536 % 65536) *
                65536) /
            2 ^ 16)
          (mulhi16 (((p &&& 4278255360) % 65536 + (p &&& 4278255360) % 65536 * 65536) % 65536)
              ((cb % 65536 + cr % 65536 * 65536) % 65536) +
            mulhi16 (((p &&& 4278255360) % 65536 + (p &&& 4278255360) % 65536 * 65536) / 65536 % 65536)
                ((cb % 65536 + cr % 65536 * 65536) / 65536 % 65536) *
              65536) &&&
        16711935)
      = p / 16777216 % 256 * 16777216
        + (p / 65536 % 256 + 256 - mulhi16 (p / 256 % 256 * 256) cr % 256) % 256 * 65536
        + p / 256 % 256 * 256
        + (p % 256 + 256
            - (mulhi16 (p / 256 % 256 * 256) cb % 256
               + mulhi16 (p / 65536 % 256 * 256) crb % 256) % 256) % 256 := by
  rw [Nat.mod_eq_of_lt hcb, Nat.mod_eq_of_lt hcr, Nat.mod_eq_of_lt hcrb]
  rw [show (0 % 65536 + crb * 65536) % 65536 = 0 from by omega]
  rw [show (0 % 65536 + crb * 65536) / 65536 % 65536 = crb from by omega]
  rw [show (cb + cr * 65536) % 65536 = cb from by omega]
  rw [show (cb + cr * 65536) / 65536 % 65536 = cr from by omega]
  rw [mulhi16_zero]
  rw [show (2 : Nat) ^ 8 = 256 from by norm_num, show (2 : Nat) ^ 16 = 65536 from by norm_num]
  rw [show p % 65536 * 256 % 65536 = p % 256 * 256 from by omega]
  rw [show p / 65536 % 65536 * 256 % 65536 = p / 65536 % 256 * 256 from by omega]
  obtain ⟨l1, l2⟩ := word2_lanes (p % 256 * 256) (p / 65536 % 256 * 256) (by omega) (by omega)
  rw [l2]
  clear l1 l2
  rw [and_mask_ag]
  rw [show (p / 256 % 256 * 256 + p / 16777216 % 256 * 16777216) % 65536 = p / 256 % 256 * 256
    from by omega]
  obtain ⟨l3, l4⟩ := word2_lanes (p / 256 % 256 * 256) (p / 256 % 256 * 256) (by omega) (by omega)
  rw [l3, l4]
  clear l3 l4
  have hdb2 := mulhi16_lt (p / 65536 % 256 * 256) crb
  have hdb1 := mulhi16_lt (p / 256 % 256 * 256) cb
  have hdr := mulhi16_lt (p / 256 % 256 * 256) cr
  rw [show (0 + mulhi16 (p / 65536 % 256 * 256) crb * 65536) / 65536
      = mulhi16 (p / 65536 % 256 * 256) crb from by omega]
  simp only [add_epi8_32]
  obtain ⟨f1, f2, f3, f4⟩ := word2_bytes (mulhi16 (p / 256 % 256 * 256) cb)
    (mulhi16 (p / 256 % 256 * 256) cr) hdb1 hdr
  rw [f1, f2, f3, f4]
  clear f1 f2 f3 f4
  generalize h1 : mulhi16 (p / 65536 % 256 * 256) crb = db2 at hdb2 ⊢
  generalize h2 : mulhi16 (p / 256 % 256 * 256) cb = db1 at hdb1 ⊢
  generalize h3 : mulhi16 (p / 256 % 256 * 256) cr = dr at hdr ⊢
  rw [show db2 / 256 % 256 = db2 / 256 from by omega,
    show db2 / 65536 % 256 = 0 from by omega,
    show db2 / 16777216 % 256 = 0 from by omega]
  simp only [Nat.zero_add]
  rw [show dr % 256 % 256 = dr % 256 from by omega,
    show dr / 256 % 256 = dr / 256 from by omega]
  rw [and_mask_rb]
  obtain ⟨g1, g2⟩ := word4_bytes ((db2 % 256 + db1 % 256) % 256)
    ((db2 / 256 + db1 / 256) % 256) (dr % 256) (dr / 256)
    (by omega) (by omega) (by omega) (by omega)
  rw [g1, g2]
  clear g1 g2
  simp only [sub_epi8_32]
  obtain ⟨k1, k2, k3, k4⟩ := word2_bytes ((db2 % 256 + db1 % 256) % 256) (dr % 256)
    (by omega) (by omega)
  rw [k1, k2, k3, k4]
  clear k1 k2 k3 k4
  rw [show (db2 % 256 + db1 % 256) % 256 % 256 = (db2 % 256 + db1 % 256) % 256 from by omega,
    show (db2 % 256 + db1 % 256) % 256 / 256 = 0 from by omega,
    show dr % 256 % 256 = dr % 256 from by omega,
    show dr % 256 / 256 = 0 from by omega]
  simp only [Nat.sub_zero]
  rw [Nat.add_comm (db2 % 256) (db1 % 256),
    show (p / 256 % 256 + 256) % 256 = p / 256 % 256 from by omega,
    show (p / 16777216 % 256 + 256) % 256 = p / 16777216 % 256 from by omega]
  ring

/-- The vector body of `TransformColor` processes its four pixels exactly
like the scalar reference. -/
theorem tcBlock_eq (m : VP8LMultipliers) (p0 p1 p2 p3 : Nat) :
    tcBlock m [p0, p1, p2, p3] =
      [transformColorPixel m p0, transformColorPixel m p1,
       transformColorPixel m p2, transformColorPixel m p3] := by
  simp only [tcBlock, mm_set1_epi32, mm_set_epi16, mm_and_si128, mm_shufflelo_epi16_2200,
    mm_shufflehi_epi16_2200, mm_mulhi_epi16, mm_slli_epi16, mm_srli_epi32, mm_add_epi8,
    mm_sub_epi8, List.zipWith, List.map]
  rw [tcWordGen p0 (lane16 (CST m.green_to_blue_)) (lane16 (CST m.green_to_red_))
      (lane16 (CST m.red_to_blue_)) (lane16_lt _) (lane16_lt _) (lane16_lt _),
    tcWordGen p1 (lane16 (CST m.green_to_blue_)) (lane16 (CST m.green_to_red_))
      (lane16 (CST m.red_to_blue_)) (lane16_lt _) (lane16_lt _) (lane16_lt _),
    tcWordGen p2 (lane16 (CST m.green_to_blue_)) (lane16 (CST m.green_to_red_))
      (lane16 (CST m.red_to_blue_)) (lane16_lt _) (lane16_lt _) (lane16_lt _),
    tcWordGen p3 (lane16 (CST m.green_to_blue_)) (lane16 (CST m.green_to_red_))
      (lane16 (CST m.red_to_blue_)) (lane16_lt _) (lane16_lt _) (lane16_lt _)]
  simp only [transformColorPixel]

/-- The SSE2 `TransformColor` equals the scalar reference applied to the
whole buffer. -/
theorem TransformColor_eq_C (m : VP8LMultipliers) (xs : List Nat) :
    TransformColor m xs = VP8LTransformColor_C m xs := by
  induction xs using SubtractGreenFromBlueAndRed.induct with
  | case1 p0 p1 p2 p3 rest ih =>
      rw [TransformColor, tcBlock_eq m p0 p1 p2 p3, ih]
      simp [VP8LTransformColor_C]
  | case2 rest h =>
      cases rest with
      | nil => rfl
      | cons a t1 =>
        cases t1 with
        | nil => rfl
        | cons b t2 =>
          cases t2 with
          | nil => rfl
          | cons c t3 =>
            cases t3 with
            | nil => rfl
            | cons d t4 => exact (h a b c d t4 rfl).elim


theorem zipAdd_append (a1 a2 b1 b2 : List Nat) (h : a1.length = b1.length) :
    zipAdd (a1 ++ a2) (b1 ++ b2) = zipAdd a1 b1 ++ zipAdd a2 b2 :=
  List.zipWith_append _ _ _ _ _ h

/-- The chunked vector loop of `AddVector` computes the element-wise
32-bit sum whenever the size precondition of its `assert` holds. -/
theorem AddVector_eq_zipAdd (a b : List Nat) (hlen : a.length = b.length)
    (hm : a.length % 16 = 0) : AddVector a b = zipAdd a b := by
  induction a, b using AddVector.induct with
  | case1 a b hc ih =>
      obtain ⟨h16a, h16b⟩ := hc
      rw [AddVector, if_pos ⟨h16a, h16b⟩]
      conv_rhs => rw [← List.take_append_drop 16 a, ← List.take_append_drop 16 b]
      rw [zipAdd_append _ _ _ _ (by simp; omega)]
      rw [ih (by simp; omega) (by simp; omega)]
      congr 1
      rw [show (16 : Nat) = 4 + 12 from by norm_num, List.take_add, List.take_add,
        zipAdd_append _ _ _ _ (by simp; omega)]
      rw [show (12 : Nat) = 4 + 8 from by norm_num, List.take_add, List.take_add,
        zipAdd_append _ _ _ _ (by simp; omega)]
      rw [show (8 : Nat) = 4 + 4 from by norm_num, List.take_add, List.take_add,
        zipAdd_append _ _ _ _ (by simp; omega)]
      rw [show mm_add_epi32 = zipAdd from rfl]
      simp [List.drop_drop, List.append_assoc]
  | case2 a b hc =>
      rw [AddVector, if_neg hc]
      have : a.length < 16 ∨ b.length < 16 := by
        by_contra hcc
        push_neg at hcc
        exact hc ⟨hcc.1, hcc.2⟩
      have ha0 : a.length = 0 := by omega
      have hb0 : b.length = 0 := by omega
      rw [List.eq_nil_of_length_eq_zero ha0, List.eq_nil_of_length_eq_zero hb0]
      rfl

/-- The read-modify-write loop `AddVectorEq` computes the same element-wise
sums as `AddVector`. -/
theorem AddVectorEq_eq_AddVector (a out : List Nat) :
    AddVectorEq a out = AddVector a out := by
  induction a, out using AddVectorEq.induct with
  | case1 a out hc ih =>
      rw [AddVectorEq, AddVector, if_pos hc, if_pos hc, ih]
  | case2 a out hc =>
      rw [AddVectorEq, AddVector, if_neg hc, if_neg hc]

theorem rangeMap_zipAdd (u v : List Nat) (off n : Nat) (hu : u.length = off + n)
    (hv : v.length = off + n) :
    (List.range n).map (fun k => (u.getD (off + k) 0 + v.getD (off + k) 0) % 4294967296)
      = zipAdd (u.drop off) (v.drop off) := by
  apply List.ext_getElem
  · simp [zipAdd]; omega
  · intro i h1 h2
    simp only [List.getElem_map, List.getElem_range, zipAdd, List.getElem_zipWith,
      List.getElem_drop]
    have hiu : off + i < u.length := by simp at h1; omega
    have hiv : off + i < v.length := by simp at h1; omega
    rw [List.getD_eq_getElem u 0 hiu, List.getD_eq_getElem v 0 hiv]

theorem numCodes_ge (p : Nat) : 280 ≤ VP8LHistogramNumCodes p := by
  have h2 : 0 < 2 ^ p := Nat.two_pow_pos p
  unfold VP8LHistogramNumCodes NUM_LITERAL_CODES NUM_LENGTH_CODES
  split <;> omega

theorem HistogramAdd_spec (a b out0 : VP8LHistogram) (p : Nat)
    (ha : Hwf a p) (hb : Hwf b p) (ho : Hwf out0 p) :
    HistogramAdd false a b out0 =
      { literal_ := zipAdd a.literal_ b.literal_
        red_ := zipAdd a.red_ b.red_
        blue_ := zipAdd a.blue_ b.blue_
        alpha_ := zipAdd a.alpha_ b.alpha_
        distance_ := zipAdd a.distance_ b.distance_
        palette_code_bits_ := p } := by
  obtain ⟨hap, hal, har, hab, haa, had⟩ := ha
  obtain ⟨hbp, hbl, hbr, hbb, hba, hbd⟩ := hb
  obtain ⟨hop, hol, hor, hob, hoa, hod⟩ := ho
  have hge := numCodes_ge p
  simp only [NUM_LITERAL_CODES, NUM_DISTANCE_CODES] at har hab haa had hbr hbb hba hbd hor hob hoa hod
  simp only [HistogramAdd, NUM_LITERAL_CODES, NUM_DISTANCE_CODES, hap,
    Bool.false_eq_true, if_false, if_true, VP8LHistogram.mk.injEq]
  have hlt : ∀ u : List Nat, u.length = VP8LHistogramNumCodes p →
      (u.take 256).length = 256 := by
    intro u hu; simp [hu]; omega
  have ht256 : ∀ u : List Nat, u.length = 256 → u.take 256 = u := by
    intro u hu; exact List.take_of_length_le (by omega)
  refine ⟨?_, ?_, ?_, ?_, ?_, hop⟩
  · rw [AddVector_eq_zipAdd _ _ (by rw [hlt _ hal, hlt _ hbl]) (by rw [hlt _ hal])]
    rw [rangeMap_zipAdd a.literal_ b.literal_ 256 (VP8LHistogramNumCodes p - 256)
      (by omega) (by omega)]
    rw [List.drop_eq_nil_of_le
      (show out0.literal_.length ≤ VP8LHistogramNumCodes p from by omega), List.append_nil]
    rw [← zipAdd_append _ _ _ _ (by rw [hlt _ hal, hlt _ hbl])]
    rw [List.take_append_drop, List.take_append_drop]
  · rw [ht256 _ har, ht256 _ hbr,
      List.drop_eq_nil_of_le (show out0.red_.length ≤ 256 from by omega), List.append_nil]
    rw [AddVector_eq_zipAdd _ _ (by rw [har, hbr]) (by rw [har])]
  · rw [ht256 _ hab, ht256 _ hbb,
      List.drop_eq_nil_of_le (show out0.blue_.length ≤ 256 from by omega), List.append_nil]
    rw [AddVector_eq_zipAdd _ _ (by rw [hab, hbb]) (by rw [hab])]
  · rw [ht256 _ haa, ht256 _ hba,
      List.drop_eq_nil_of_le (show out0.alpha_.length ≤ 256 from by omega), List.append_nil]
    rw [AddVector_eq_zipAdd _ _ (by rw [haa, hba]) (by rw [haa])]
  · rw [List.drop_eq_nil_of_le (show out0.distance_.length ≤ 40 from by omega),
      List.append_nil]
    have h40 := rangeMap_zipAdd a.distance_ b.distance_ 0 40 (by omega) (by omega)
    simp only [Nat.zero_add] at h40
    rw [h40]
    simp
theorem HistogramAdd_aliased_spec (a b out0 : VP8LHistogram) (p : Nat)
    (ha : Hwf a p) (ho : Hwf out0 p) :
    HistogramAdd true a b out0 =
      { literal_ := zipAdd a.literal_ out0.literal_
        red_ := zipAdd a.red_ out0.red_
        blue_ := zipAdd a.blue_ out0.blue_
        alpha_ := zipAdd a.alpha_ out0.alpha_
        distance_ := zipAdd a.distance_ out0.distance_
        palette_code_bits_ := p } := by
  obtain ⟨hap, hal, har, hab, haa, had⟩ := ha
  obtain ⟨hop, hol, hor, hob, hoa, hod⟩ := ho
  have hge := numCodes_ge p
  simp only [NUM_LITERAL_CODES, NUM_DISTANCE_CODES] at har hab haa had hor hob hoa hod
  simp only [HistogramAdd, NUM_LITERAL_CODES, NUM_DISTANCE_CODES, hap,
    Bool.true_eq_false, if_false, if_true, VP8LHistogram.mk.injEq,
    AddVectorEq_eq_AddVector]
  have hlt : ∀ u : List Nat, u.length = VP8LHistogramNumCodes p →
      (u.take 256).length = 256 := by
    intro u hu; simp [hu]; omega
  have ht256 : ∀ u : List Nat, u.length = 256 → u.take 256 = u := by
    intro u hu; exact List.take_of_length_le (by omega)
  refine ⟨?_, ?_, ?_, ?_, ?_, hop⟩
  · rw [AddVector_eq_zipAdd _ _ (by rw [hlt _ hal, hlt _ hol]) (by rw [hlt _ hal])]
    rw [rangeMap_zipAdd a.literal_ out0.literal_ 256 (VP8LHistogramNumCodes p - 256)
      (by omega) (by omega)]
    rw [List.drop_eq_nil_of_le
      (show out0.literal_.length ≤ VP8LHistogramNumCodes p from by omega), List.append_nil]
    rw [← zipAdd_append _ _ _ _ (by rw [hlt _ hal, hlt _ hol])]
    rw [List.take_append_drop, List.take_append_drop]
  · rw [ht256 _ har, ht256 _ hor,
      List.drop_eq_nil_of_le (show out0.red_.length ≤ 256 from by omega), List.append_nil]
    rw [AddVector_eq_zipAdd _ _ (by rw [har, hor]) (by rw [har])]
  · rw [ht256 _ hab, ht256 _ hob,
      List.drop_eq_nil_of_le (show out0.blue_.length ≤ 256 from by omega), List.append_nil]
    rw [AddVector_eq_zipAdd _ _ (by rw [hab, hob]) (by rw [hab])]
  · rw [ht256 _ haa, ht256 _ hoa,
      List.drop_eq_nil_of_le (show out0.alpha_.length ≤ 256 from by omega), List.append_nil]
    rw [AddVector_eq_zipAdd _ _ (by rw [haa, hoa]) (by rw [haa])]
  · rw [List.drop_eq_nil_of_le (show out0.distance_.length ≤ 40 from by omega),
      List.append_nil]
    have h40 := rangeMap_zipAdd a.distance_ out0.distance_ 0 40 (by omega) (by omega)
    simp only [Nat.zero_add] at h40
    rw [h40]
    simp
/-! ## Counter-list algebra and the accumulate wrapper -/

theorem zipAdd_comm (a b : List Nat) : zipAdd a b = zipAdd b a :=
  List.zipWith_comm_of_comm _ (fun x y => by rw [Nat.add_comm]) a b

theorem zipAdd_assoc (a : List Nat) : ∀ b c : List Nat,
    zipAdd (zipAdd a b) c = zipAdd a (zipAdd b c) := by
  induction a with
  | nil => intro b c; rfl
  | cons x t ih =>
      intro b c
      cases b with
      | nil => rfl
      | cons y u =>
          cases c with
          | nil => rfl
          | cons z v =>
              simp only [zipAdd, List.zipWith_cons_cons, List.cons.injEq] at *
              exact ⟨by omega, ih u v⟩

theorem zipAdd_length (a b : List Nat) : (zipAdd a b).length = min a.length b.length := by
  simp [zipAdd]

theorem zipAdd_getD (a b : List Nat) (i : Nat) (hia : i < a.length) (hib : i < b.length) :
    (zipAdd a b).getD i 0 = (a.getD i 0 + b.getD i 0) % 4294967296 := by
  have hz : i < (zipAdd a b).length := by rw [zipAdd_length]; omega
  rw [List.getD_eq_getElem _ 0 hz, List.getD_eq_getElem _ 0 hia, List.getD_eq_getElem _ 0 hib]
  simp [zipAdd]


theorem emptyHistogram_wf (p : Nat) : Hwf (emptyHistogram p) p := by
  unfold Hwf emptyHistogram
  refine ⟨rfl, ?_, ?_, ?_, ?_, ?_⟩ <;> simp


/-- Canonical form of `histogramAccumulate` on well-formed inputs. -/
theorem histogramAccumulate_spec (a b : VP8LHistogram) (p : Nat)
    (ha : Hwf a p) (hb : Hwf b p) :
    histogramAccumulate a b =
      { literal_ := zipAdd a.literal_ b.literal_
        red_ := zipAdd a.red_ b.red_
        blue_ := zipAdd a.blue_ b.blue_
        alpha_ := zipAdd a.alpha_ b.alpha_
        distance_ := zipAdd a.distance_ b.distance_
        palette_code_bits_ := p } := by
  unfold histogramAccumulate
  rw [ha.1]
  exact HistogramAdd_spec a b _ p ha hb (emptyHistogram_wf p)

/-- Accumulation preserves well-formedness. -/
theorem histogramAccumulate_wf (a b : VP8LHistogram) (p : Nat)
    (ha : Hwf a p) (hb : Hwf b p) : Hwf (histogramAccumulate a b) p := by
  rw [histogramAccumulate_spec a b p ha hb]
  obtain ⟨-, hal, har, hab, haa, had⟩ := ha
  obtain ⟨-, hbl, hbr, hbb, hba, hbd⟩ := hb
  unfold Hwf
  refine ⟨rfl, ?_, ?_, ?_, ?_, ?_⟩ <;> simp [zipAdd_length, hal, hbl, har, hbr, hab, hbb,
    haa, hba, had, hbd]

/-! ## Per-pixel byte facts -/

/-- The color transform leaves the green and alpha bytes unchanged. -/
theorem transformColorPixel_ag (m : VP8LMultipliers) (p : Nat) :
    transformColorPixel m p / 256 % 256 = p / 256 % 256 ∧
    transformColorPixel m p / 16777216 % 256 = p / 16777216 % 256 := by
  simp only [transformColorPixel]
  generalize hR : (p / 65536 % 256 + 256 - mulhi16 (p / 256 % 256 * 256)
    (lane16 (CST m.green_to_red_)) % 256) % 256 = R
  generalize hB : (p % 256 + 256 - (mulhi16 (p / 256 % 256 * 256)
    (lane16 (CST m.green_to_blue_)) % 256
    + mulhi16 (p / 65536 % 256 * 256) (lane16 (CST m.red_to_blue_)) % 256) % 256) % 256 = B
  have hRlt : R < 256 := hR ▸ Nat.mod_lt _ (by norm_num)
  have hBlt : B < 256 := hB ▸ Nat.mod_lt _ (by norm_num)
  clear hR hB
  constructor
  · rw [show (p / 16777216 % 256 * 16777216 + R * 65536 + p / 256 % 256 * 256 + B) / 256
      = p / 16777216 % 256 * 65536 + R * 256 + p / 256 % 256 from by omega]
    omega
  · rw [show (p / 16777216 % 256 * 16777216 + R * 65536 + p / 256 % 256 * 256 + B) / 16777216
      = p / 16777216 % 256 from by omega]
    omega

/-- The subtract-green transform leaves the green and alpha bytes
unchanged. -/
theorem subtractGreenPixel_ag (p : Nat) :
    subtractGreenPixel p / 256 % 256 = p / 256 % 256 ∧
    subtractGreenPixel p / 16777216 % 256 = p / 16777216 % 256 := by
  simp only [subtractGreenPixel]
  generalize hR : (p / 65536 % 256 + 256 - p / 256 % 256) % 256 = R
  generalize hB : (p % 256 + 256 - p / 256 % 256) % 256 = B
  have hRlt : R < 256 := hR ▸ Nat.mod_lt _ (by norm_num)
  have hBlt : B < 256 := hB ▸ Nat.mod_lt _ (by norm_num)
  clear hR hB
  constructor
  · rw [show (p / 16777216 % 256 * 16777216 + R * 65536 + p / 256 % 256 * 256 + B) / 256
      = p / 16777216 % 256 * 65536 + R * 256 + p / 256 % 256 from by omega]
    omega
  · rw [show (p / 16777216 % 256 * 16777216 + R * 65536 + p / 256 % 256 * 256 + B) / 16777216
      = p / 16777216 % 256 from by omega]
    omega

/-- `getD` through a `map`. -/
theorem getD_map (f : Nat → Nat) (xs : List Nat) (i : Nat) (hi : i < xs.length) :
    (xs.map f).getD i 0 = f (xs.getD i 0) := by
  have hm : i < (xs.map f).length := by simpa using hi
  rw [List.getD_eq_getElem _ 0 hm, List.getD_eq_getElem _ 0 hi, List.getElem_map]

/-- Red and blue bytes of the subtract-green result. -/
theorem subtractGreenPixel_bytes (p : Nat) :
    subtractGreenPixel p / 65536 % 256 = (p / 65536 % 256 + 256 - p / 256 % 256) % 256 ∧
    subtractGreenPixel p % 256 = (p % 256 + 256 - p / 256 % 256) % 256 := by
  simp only [subtractGreenPixel]
  generalize hR : (p / 65536 % 256 + 256 - p / 256 % 256) % 256 = R
  generalize hB : (p % 256 + 256 - p / 256 % 256) % 256 = B
  have hRlt : R < 256 := hR ▸ Nat.mod_lt _ (by norm_num)
  have hBlt : B < 256 := hB ▸ Nat.mod_lt _ (by norm_num)
  clear hR hB
  constructor
  · rw [show (p / 16777216 % 256 * 16777216 + R * 65536 + p / 256 % 256 * 256 + B) / 65536
      = p / 16777216 % 256 * 256 + R from by omega]
    omega
  · omega

/-- Blue byte of the color-transform result: the red→blue contribution is
computed from the pixel's red channel. -/
theorem transformColorPixel_blue (m : VP8LMultipliers) (p : Nat) :
    transformColorPixel m p % 256
      = (p % 256 + 256
          - (mulhi16 (p / 256 % 256 * 256) (lane16 (CST m.green_to_blue_)) % 256
             + mulhi16 (p / 65536 % 256 * 256) (lane16 (CST m.red_to_blue_)) % 256)
            % 256) % 256 := by
  simp only [transformColorPixel]
  generalize hR : (p / 65536 % 256 + 256 - mulhi16 (p / 256 % 256 * 256)
    (lane16 (CST m.green_to_red_)) % 256) % 256 = R
  generalize hB : (p % 256 + 256 - (mulhi16 (p / 256 % 256 * 256)
    (lane16 (CST m.green_to_blue_)) % 256
    + mulhi16 (p / 65536 % 256 * 256) (lane16 (CST m.red_to_blue_)) % 256) % 256) % 256 = B
  have hRlt : R < 256 := hR ▸ Nat.mod_lt _ (by norm_num)
  have hBlt : B < 256 := hB ▸ Nat.mod_lt _ (by norm_num)
  clear hR
  subst hB
  omega

/-- With all three multipliers at zero the per-pixel color transform is
the identity on 32-bit pixels. -/
theorem transformColorPixel_zero (p : Nat) (hp : p < 4294967296) :
    transformColorPixel ⟨0, 0, 0⟩ p = p := by
  have h0 : lane16 (CST 0) = 0 := by decide
  simp only [transformColorPixel, h0, mulhi16_zero]
  omega
/-- C1: for every multiplier set, pixel buffer and pixel index below the
count, `TransformColor` replaces the pixel by the residual-subtracted pixel
computed exactly as specified (`transformColorPixel`: sign-extended
multipliers pre-scaled by 8 bits over 32, green duplicated into both
16-bit halves with multiply-high, red shifted left 8 with multiply-high
then shifted right 16, contributions added, masked to the red/blue bytes
and subtracted with 8-bit wrap-around), leaving the count, the alpha byte
and the green byte of every pixel unchanged. -/
theorem claim_C1_colorTransform_functional (m : VP8LMultipliers) (xs : List Nat) (i : Nat)
    (hi : i < xs.length) :
    (TransformColor m xs).length = xs.length ∧
    (TransformColor m xs).getD i 0 = transformColorPixel m (xs.getD i 0) ∧
    (TransformColor m xs).getD i 0 / 256 % 256 = xs.getD i 0 / 256 % 256 ∧
    (TransformColor m xs).getD i 0 / 16777216 % 256 = xs.getD i 0 / 16777216 % 256 := by
  rw [TransformColor_eq_C]
  unfold VP8LTransformColor_C
  refine ⟨by simp, getD_map _ _ _ hi, ?_, ?_⟩
  · rw [getD_map _ _ _ hi]
    exact (transformColorPixel_ag m _).1
  · rw [getD_map _ _ _ hi]
    exact (transformColorPixel_ag m _).2

/-- Witness for C1 at a concrete pixel and multiplier set. -/
theorem claim_C1_witness :
    0 < ([305419896] : List Nat).length ∧
    ((TransformColor ⟨3, 250, 7⟩ [305419896]).length = ([305419896] : List Nat).length ∧
     (TransformColor ⟨3, 250, 7⟩ [305419896]).getD 0 0
        = transformColorPixel ⟨3, 250, 7⟩ (([305419896] : List Nat).getD 0 0) ∧
     (TransformColor ⟨3, 250, 7⟩ [305419896]).getD 0 0 / 256 % 256
        = ([305419896] : List Nat).getD 0 0 / 256 % 256 ∧
     (TransformColor ⟨3, 250, 7⟩ [305419896]).getD 0 0 / 16777216 % 256
        = ([305419896] : List Nat).getD 0 0 / 16777216 % 256) :=
  ⟨by decide, claim_C1_colorTransform_functional ⟨3, 250, 7⟩ [305419896] 0 (by decide)⟩
/-- C2: `SubtractGreenFromBlueAndRed` replaces, in place, each pixel's red
and blue bytes by `(channel - green) mod 256` with per-byte wrap-around
and leaves the count and the alpha and green bytes unchanged; in
particular the pixel with green `0xFF`, red `0x00` (`0x0000FF00`) maps to
`0x0001FF01`, i.e. red becomes `0x01`. -/
theorem claim_C2_subtractGreen_functional (xs : List Nat) (i : Nat) (hi : i < xs.length) :
    ((SubtractGreenFromBlueAndRed xs).length = xs.length ∧
     (SubtractGreenFromBlueAndRed xs).getD i 0 / 65536 % 256
        = (xs.getD i 0 / 65536 % 256 + 256 - xs.getD i 0 / 256 % 256) % 256 ∧
     (SubtractGreenFromBlueAndRed xs).getD i 0 % 256
        = (xs.getD i 0 % 256 + 256 - xs.getD i 0 / 256 % 256) % 256 ∧
     (SubtractGreenFromBlueAndRed xs).getD i 0 / 256 % 256 = xs.getD i 0 / 256 % 256 ∧
     (SubtractGreenFromBlueAndRed xs).getD i 0 / 16777216 % 256
        = xs.getD i 0 / 16777216 % 256) ∧
    SubtractGreenFromBlueAndRed [65280] = [130817] := by
  constructor
  · rw [SubtractGreenFromBlueAndRed_eq_C]
    unfold VP8LSubtractGreenFromBlueAndRed_C
    refine ⟨by simp, ?_, ?_, ?_, ?_⟩ <;> rw [getD_map _ _ _ hi]
    · exact (subtractGreenPixel_bytes _).1
    · exact (subtractGreenPixel_bytes _).2
    · exact (subtractGreenPixel_ag _).1
    · exact (subtractGreenPixel_ag _).2
  · decide

/-- Witness for C2 at the spec's wrap-around example pixel. -/
theorem claim_C2_witness :
    0 < ([65280] : List Nat).length ∧
    (((SubtractGreenFromBlueAndRed [65280]).length = ([65280] : List Nat).length ∧
      (SubtractGreenFromBlueAndRed [65280]).getD 0 0 / 65536 % 256
         = (([65280] : List Nat).getD 0 0 / 65536 % 256 + 256
            - ([65280] : List Nat).getD 0 0 / 256 % 256) % 256 ∧
      (SubtractGreenFromBlueAndRed [65280]).getD 0 0 % 256
         = (([65280] : List Nat).getD 0 0 % 256 + 256
            - ([65280] : List Nat).getD 0 0 / 256 % 256) % 256 ∧
      (SubtractGreenFromBlueAndRed [65280]).getD 0 0 / 256 % 256
         = ([65280] : List Nat).getD 0 0 / 256 % 256 ∧
      (SubtractGreenFromBlueAndRed [65280]).getD 0 0 / 16777216 % 256
         = ([65280] : List Nat).getD 0 0 / 16777216 % 256) ∧
     SubtractGreenFromBlueAndRed [65280] = [130817]) :=
  ⟨by decide, claim_C2_subtractGreen_functional [65280] 0 (by decide)⟩

/-- C3: for every multiplier set and every pixel buffer of any length
(including lengths that are one less than a multiple of four and exact
multiples of four), the vectorized kernels produce byte-identical output
to the scalar reference implementations applied to the whole buffer; the
list embedding touches only the first `count` pixels by construction. -/
theorem claim_C3_vector_equals_scalar (m : VP8LMultipliers) (xs : List Nat) :
    SubtractGreenFromBlueAndRed xs = VP8LSubtractGreenFromBlueAndRed_C xs ∧
    TransformColor m xs = VP8LTransformColor_C m xs :=
  ⟨SubtractGreenFromBlueAndRed_eq_C xs, TransformColor_eq_C m xs⟩

/-- C6: with all three multipliers at zero, the color transform leaves
every 32-bit pixel of the buffer exactly unchanged. -/
theorem claim_C6_zero_multipliers_noop (xs : List Nat)
    (hb : ∀ p ∈ xs, p < 4294967296) :
    TransformColor ⟨0, 0, 0⟩ xs = xs := by
  rw [TransformColor_eq_C]
  unfold VP8LTransformColor_C
  have h := List.map_congr_left
    (fun p hp => transformColorPixel_zero p (hb p hp))
  rw [h, List.map_id']

/-- Witness for C6 on a concrete buffer of five pixels (one vector group
plus a scalar tail). -/
theorem claim_C6_witness :
    (∀ p ∈ ([305419896, 4278255360, 16909060, 2864434397, 4294967295] : List Nat),
      p < 4294967296) ∧
    TransformColor ⟨0, 0, 0⟩ [305419896, 4278255360, 16909060, 2864434397, 4294967295]
      = [305419896, 4278255360, 16909060, 2864434397, 4294967295] :=
  ⟨by decide, claim_C6_zero_multipliers_noop _ (by decide)⟩
/-- `CST` depends only on the multiplier's residue modulo 256. -/
theorem CST_congr (x y : Int) (h : x % 256 = y % 256) : CST x = CST y := by
  rw [CST_eq, CST_eq]
  omega

/-- C9: the red→blue contribution to the blue channel is computed from the
pixel's original red value: the output blue byte equals the formula using
the input's red byte (first conjunct); at a concrete input, the same
formula fed the transformed red byte instead gives a different value
(second conjunct). -/
theorem claim_C9_redtoblue_from_original_red :
    (∀ (m : VP8LMultipliers) (xs : List Nat) (i : Nat), i < xs.length →
      (TransformColor m xs).getD i 0 % 256
        = (xs.getD i 0 % 256 + 256
            - (mulhi16 (xs.getD i 0 / 256 % 256 * 256) (lane16 (CST m.green_to_blue_)) % 256
               + mulhi16 (xs.getD i 0 / 65536 % 256 * 256)
                   (lane16 (CST m.red_to_blue_)) % 256) % 256) % 256) ∧
    (TransformColor ⟨32, 0, 32⟩ [655616]).getD 0 0 % 256
      ≠ (([655616] : List Nat).getD 0 0 % 256 + 256
          - (mulhi16 (([655616] : List Nat).getD 0 0 / 256 % 256 * 256) (lane16 (CST 0)) % 256
             + mulhi16 ((TransformColor ⟨32, 0, 32⟩ [655616]).getD 0 0 / 65536 % 256 * 256)
                 (lane16 (CST 32)) % 256) % 256) % 256 := by
  constructor
  · intro m xs i hi
    rw [TransformColor_eq_C]
    unfold VP8LTransformColor_C
    rw [getD_map _ _ _ hi]
    exact transformColorPixel_blue m _
  · decide

/-- C10: only the low 8 bits of each multiplier, read as a signed byte,
affect the output: multiplier sets that agree modulo 256 componentwise
produce identical transforms. -/
theorem claim_C10_multipliers_mod256 (m1 m2 : VP8LMultipliers) (xs : List Nat)
    (h1 : m1.green_to_red_ % 256 = m2.green_to_red_ % 256)
    (h2 : m1.green_to_blue_ % 256 = m2.green_to_blue_ % 256)
    (h3 : m1.red_to_blue_ % 256 = m2.red_to_blue_ % 256) :
    TransformColor m1 xs = TransformColor m2 xs := by
  rw [TransformColor_eq_C, TransformColor_eq_C]
  unfold VP8LTransformColor_C
  have hpix : ∀ p, transformColorPixel m1 p = transformColorPixel m2 p := by
    intro p
    simp only [transformColorPixel]
    rw [CST_congr _ _ h1, CST_congr _ _ h2, CST_congr _ _ h3]
  exact List.map_congr_left (fun p _ => hpix p)

/-- Witness for C10: multiplier sets `(1, 2, 3)` and `(257, -254, 259)`
agree modulo 256 and act identically on a concrete buffer. -/
theorem claim_C10_witness :
    ((1 : Int) % 256 = (257 : Int) % 256 ∧
     (2 : Int) % 256 = (-254 : Int) % 256 ∧
     (3 : Int) % 256 = (259 : Int) % 256) ∧
    TransformColor ⟨1, 2, 3⟩ [305419896, 19088743]
      = TransformColor ⟨257, -254, 259⟩ [305419896, 19088743] :=
  ⟨⟨by decide, by decide, by decide⟩,
   claim_C10_multipliers_mod256 ⟨1, 2, 3⟩ ⟨257, -254, 259⟩ [305419896, 19088743]
     (by decide) (by decide) (by decide)⟩
/-- C4: for well-formed inputs with equal palette parameter and any
well-formed output histogram, `HistogramAdd` (non-aliased path) sets every
counter of the output — the four fixed channel arrays, the
palette-dependent literal region and the distance array — to the 32-bit
sum of the corresponding input counters. -/
theorem claim_C4_histogramAdd_sums (a b out0 : VP8LHistogram) (p i : Nat)
    (ha : Hwf a p) (hb : Hwf b p) (ho : Hwf out0 p) :
    (i < VP8LHistogramNumCodes p →
      (HistogramAdd false a b out0).literal_.getD i 0
        = (a.literal_.getD i 0 + b.literal_.getD i 0) % 4294967296) ∧
    (i < NUM_LITERAL_CODES →
      (HistogramAdd false a b out0).red_.getD i 0
        = (a.red_.getD i 0 + b.red_.getD i 0) % 4294967296 ∧
      (HistogramAdd false a b out0).blue_.getD i 0
        = (a.blue_.getD i 0 + b.blue_.getD i 0) % 4294967296 ∧
      (HistogramAdd false a b out0).alpha_.getD i 0
        = (a.alpha_.getD i 0 + b.alpha_.getD i 0) % 4294967296) ∧
    (i < NUM_DISTANCE_CODES →
      (HistogramAdd false a b out0).distance_.getD i 0
        = (a.distance_.getD i 0 + b.distance_.getD i 0) % 4294967296) := by
  rw [HistogramAdd_spec a b out0 p ha hb ho]
  obtain ⟨-, hal, har, hab, haa, had⟩ := ha
  obtain ⟨-, hbl, hbr, hbb, hba, hbd⟩ := hb
  refine ⟨fun hil => ?_, fun hic => ⟨?_, ?_, ?_⟩, fun hid => ?_⟩
  · exact zipAdd_getD _ _ i (by omega) (by omega)
  · exact zipAdd_getD _ _ i (by omega) (by omega)
  · exact zipAdd_getD _ _ i (by omega) (by omega)
  · exact zipAdd_getD _ _ i (by omega) (by omega)
  · exact zipAdd_getD _ _ i (by omega) (by omega)

/-- Witness for C4 on concrete zero histograms with palette parameter 0. -/
theorem claim_C4_witness :
    (Hwf (emptyHistogram 0) 0 ∧ Hwf (emptyHistogram 0) 0 ∧ Hwf (emptyHistogram 0) 0) ∧
    ((0 < VP8LHistogramNumCodes 0 →
      (HistogramAdd false (emptyHistogram 0) (emptyHistogram 0) (emptyHistogram 0)).literal_.getD 0 0
        = ((emptyHistogram 0).literal_.getD 0 0 + (emptyHistogram 0).literal_.getD 0 0) % 4294967296) ∧
     (0 < NUM_LITERAL_CODES →
      (HistogramAdd false (emptyHistogram 0) (emptyHistogram 0) (emptyHistogram 0)).red_.getD 0 0
        = ((emptyHistogram 0).red_.getD 0 0 + (emptyHistogram 0).red_.getD 0 0) % 4294967296 ∧
      (HistogramAdd false (emptyHistogram 0) (emptyHistogram 0) (emptyHistogram 0)).blue_.getD 0 0
        = ((emptyHistogram 0).blue_.getD 0 0 + (emptyHistogram 0).blue_.getD 0 0) % 4294967296 ∧
      (HistogramAdd false (emptyHistogram 0) (emptyHistogram 0) (emptyHistogram 0)).alpha_.getD 0 0
        = ((emptyHistogram 0).alpha_.getD 0 0 + (emptyHistogram 0).alpha_.getD 0 0) % 4294967296) ∧
     (0 < NUM_DISTANCE_CODES →
      (HistogramAdd false (emptyHistogram 0) (emptyHistogram 0) (emptyHistogram 0)).distance_.getD 0 0
        = ((emptyHistogram 0).distance_.getD 0 0 + (emptyHistogram 0).distance_.getD 0 0) % 4294967296)) :=
  ⟨⟨emptyHistogram_wf 0, emptyHistogram_wf 0, emptyHistogram_wf 0⟩,
   claim_C4_histogramAdd_sums (emptyHistogram 0) (emptyHistogram 0) (emptyHistogram 0) 0 0
     (emptyHistogram_wf 0) (emptyHistogram_wf 0) (emptyHistogram_wf 0)⟩
/-- C5: accumulating with the output aliased to `b` (the read-modify-write
`AddVectorEq` path, reads of `b` seeing the output storage) produces
counter-wise exactly the same arrays as accumulating into a fresh,
distinct well-formed output. -/
theorem claim_C5_aliased_equals_fresh (a b out0 : VP8LHistogram) (p : Nat)
    (ha : Hwf a p) (hb : Hwf b p) (ho : Hwf out0 p) :
    (HistogramAdd true a b b).literal_ = (HistogramAdd false a b out0).literal_ ∧
    (HistogramAdd true a b b).red_ = (HistogramAdd false a b out0).red_ ∧
    (HistogramAdd true a b b).blue_ = (HistogramAdd false a b out0).blue_ ∧
    (HistogramAdd true a b b).alpha_ = (HistogramAdd false a b out0).alpha_ ∧
    (HistogramAdd true a b b).distance_ = (HistogramAdd false a b out0).distance_ := by
  rw [HistogramAdd_spec a b out0 p ha hb ho, HistogramAdd_aliased_spec a b b p ha hb]
  exact ⟨rfl, rfl, rfl, rfl, rfl⟩

/-- Witness for C5 on concrete zero histograms. -/
theorem claim_C5_witness :
    (Hwf (emptyHistogram 0) 0 ∧ Hwf (emptyHistogram 0) 0 ∧ Hwf (emptyHistogram 0) 0) ∧
    ((HistogramAdd true (emptyHistogram 0) (emptyHistogram 0) (emptyHistogram 0)).literal_
       = (HistogramAdd false (emptyHistogram 0) (emptyHistogram 0) (emptyHistogram 0)).literal_ ∧
     (HistogramAdd true (emptyHistogram 0) (emptyHistogram 0) (emptyHistogram 0)).red_
       = (HistogramAdd false (emptyHistogram 0) (emptyHistogram 0) (emptyHistogram 0)).red_ ∧
     (HistogramAdd true (emptyHistogram 0) (emptyHistogram 0) (emptyHistogram 0)).blue_
       = (HistogramAdd false (emptyHistogram 0) (emptyHistogram 0) (emptyHistogram 0)).blue_ ∧
     (HistogramAdd true (emptyHistogram 0) (emptyHistogram 0) (emptyHistogram 0)).alpha_
       = (HistogramAdd false (emptyHistogram 0) (emptyHistogram 0) (emptyHistogram 0)).alpha_ ∧
     (HistogramAdd true (emptyHistogram 0) (emptyHistogram 0) (emptyHistogram 0)).distance_
       = (HistogramAdd false (emptyHistogram 0) (emptyHistogram 0) (emptyHistogram 0)).distance_) :=
  ⟨⟨emptyHistogram_wf 0, emptyHistogram_wf 0, emptyHistogram_wf 0⟩,
   claim_C5_aliased_equals_fresh (emptyHistogram 0) (emptyHistogram 0) (emptyHistogram 0) 0
     (emptyHistogram_wf 0) (emptyHistogram_wf 0) (emptyHistogram_wf 0)⟩

/-- C7: histogram accumulation is counter-wise commutative and associative
on well-formed histograms with matching palette parameter. -/
theorem claim_C7_accumulate_comm_assoc (a b c : VP8LHistogram) (p : Nat)
    (ha : Hwf a p) (hb : Hwf b p) (hc : Hwf c p) :
    histogramAccumulate a b = histogramAccumulate b a ∧
    histogramAccumulate (histogramAccumulate a b) c
      = histogramAccumulate a (histogramAccumulate b c) := by
  constructor
  · rw [histogramAccumulate_spec a b p ha hb, histogramAccumulate_spec b a p hb ha,
      zipAdd_comm a.literal_, zipAdd_comm a.red_, zipAdd_comm a.blue_, zipAdd_comm a.alpha_,
      zipAdd_comm a.distance_]
  · rw [histogramAccumulate_spec _ c p (histogramAccumulate_wf a b p ha hb) hc,
      histogramAccumulate_spec a _ p ha (histogramAccumulate_wf b c p hb hc),
      histogramAccumulate_spec a b p ha hb, histogramAccumulate_spec b c p hb hc]
    dsimp only
    rw [zipAdd_assoc, zipAdd_assoc, zipAdd_assoc, zipAdd_assoc, zipAdd_assoc]

/-- Witness for C7 on concrete zero histograms. -/
theorem claim_C7_witness :
    (Hwf (emptyHistogram 0) 0 ∧ Hwf (emptyHistogram 0) 0 ∧ Hwf (emptyHistogram 0) 0) ∧
    (histogramAccumulate (emptyHistogram 0) (emptyHistogram 0)
       = histogramAccumulate (emptyHistogram 0) (emptyHistogram 0) ∧
     histogramAccumulate (histogramAccumulate (emptyHistogram 0) (emptyHistogram 0))
         (emptyHistogram 0)
       = histogramAccumulate (emptyHistogram 0)
           (histogramAccumulate (emptyHistogram 0) (emptyHistogram 0))) :=
  ⟨⟨emptyHistogram_wf 0, emptyHistogram_wf 0, emptyHistogram_wf 0⟩,
   claim_C7_accumulate_comm_assoc (emptyHistogram 0) (emptyHistogram 0) (emptyHistogram 0) 0
     (emptyHistogram_wf 0) (emptyHistogram_wf 0) (emptyHistogram_wf 0)⟩

theorem getD_le_of_bounded (l : List Nat) (i : Nat) (hi : i < l.length)
    (hb : ∀ x ∈ l, x ≤ 268435456) : l.getD i 0 ≤ 268435456 := by
  rw [List.getD_eq_getElem _ 0 hi]
  exact hb _ (List.getElem_mem hi)

/-- C8: when every input counter is at most `2^28`, the 32-bit additions
of `HistogramAdd` never overflow: every output counter is the exact
mathematical sum of the two input counters, and that sum stays below
`2^31`, so it is also representable as a non-negative signed 32-bit
value. -/
theorem claim_C8_no_overflow (a b out0 : VP8LHistogram) (p i : Nat)
    (ha : Hwf a p) (hb : Hwf b p) (ho : Hwf out0 p)
    (hba : Hbounded a) (hbb : Hbounded b) :
    (i < VP8LHistogramNumCodes p →
      (HistogramAdd false a b out0).literal_.getD i 0
        = a.literal_.getD i 0 + b.literal_.getD i 0 ∧
      a.literal_.getD i 0 + b.literal_.getD i 0 < 2147483648) ∧
    (i < NUM_LITERAL_CODES →
      ((HistogramAdd false a b out0).red_.getD i 0 = a.red_.getD i 0 + b.red_.getD i 0 ∧
       a.red_.getD i 0 + b.red_.getD i 0 < 2147483648) ∧
      ((HistogramAdd false a b out0).blue_.getD i 0 = a.blue_.getD i 0 + b.blue_.getD i 0 ∧
       a.blue_.getD i 0 + b.blue_.getD i 0 < 2147483648) ∧
      ((HistogramAdd false a b out0).alpha_.getD i 0 = a.alpha_.getD i 0 + b.alpha_.getD i 0 ∧
       a.alpha_.getD i 0 + b.alpha_.getD i 0 < 2147483648)) ∧
    (i < NUM_DISTANCE_CODES →
      (HistogramAdd false a b out0).distance_.getD i 0
        = a.distance_.getD i 0 + b.distance_.getD i 0 ∧
      a.distance_.getD i 0 + b.distance_.getD i 0 < 2147483648) := by
  rw [HistogramAdd_spec a b out0 p ha hb ho]
  obtain ⟨-, hal, har, hab, haa, had⟩ := ha
  obtain ⟨-, hbl, hbr, hbb', hba', hbd⟩ := hb
  obtain ⟨ba1, ba2, ba3, ba4, ba5⟩ := hba
  obtain ⟨bb1, bb2, bb3, bb4, bb5⟩ := hbb
  refine ⟨fun hil => ?_, fun hic => ⟨?_, ?_, ?_⟩, fun hid => ?_⟩
  · have e := zipAdd_getD a.literal_ b.literal_ i (by omega) (by omega)
    have u1 := getD_le_of_bounded a.literal_ i (by omega) ba1
    have u2 := getD_le_of_bounded b.literal_ i (by omega) bb1
    rw [e]
    omega
  · have e := zipAdd_getD a.red_ b.red_ i (by omega) (by omega)
    have u1 := getD_le_of_bounded a.red_ i (by omega) ba2
    have u2 := getD_le_of_bounded b.red_ i (by omega) bb2
    rw [e]
    omega
  · have e := zipAdd_getD a.blue_ b.blue_ i (by omega) (by omega)
    have u1 := getD_le_of_bounded a.blue_ i (by omega) ba3
    have u2 := getD_le_of_bounded b.blue_ i (by omega) bb3
    rw [e]
    omega
  · have e := zipAdd_getD a.alpha_ b.alpha_ i (by omega) (by omega)
    have u1 := getD_le_of_bounded a.alpha_ i (by omega) ba4
    have u2 := getD_le_of_bounded b.alpha_ i (by omega) bb4
    rw [e]
    omega
  · have e := zipAdd_getD a.distance_ b.distance_ i (by omega) (by omega)
    have u1 := getD_le_of_bounded a.distance_ i (by omega) ba5
    have u2 := getD_le_of_bounded b.distance_ i (by omega) bb5
    rw [e]
    omega

theorem emptyHistogram_bounded (p : Nat) : Hbounded (emptyHistogram p) := by
  refine ⟨?_, ?_, ?_, ?_, ?_⟩ <;> intro x hx <;> simp [emptyHistogram] at hx <;> omega

/-- Witness for C8 on concrete zero histograms (all counters 0 at most 2^28). -/
theorem claim_C8_witness :
    (Hwf (emptyHistogram 0) 0 ∧ Hbounded (emptyHistogram 0)) ∧
    ((0 < VP8LHistogramNumCodes 0 →
      (HistogramAdd false (emptyHistogram 0) (emptyHistogram 0) (emptyHistogram 0)).literal_.getD 0 0
        = (emptyHistogram 0).literal_.getD 0 0 + (emptyHistogram 0).literal_.getD 0 0 ∧
      (emptyHistogram 0).literal_.getD 0 0 + (emptyHistogram 0).literal_.getD 0 0 < 2147483648) ∧
     (0 < NUM_LITERAL_CODES →
      ((HistogramAdd false (emptyHistogram 0) (emptyHistogram 0) (emptyHistogram 0)).red_.getD 0 0
        = (emptyHistogram 0).red_.getD 0 0 + (emptyHistogram 0).red_.getD 0 0 ∧
       (emptyHistogram 0).red_.getD 0 0 + (emptyHistogram 0).red_.getD 0 0 < 2147483648) ∧
      ((HistogramAdd false (emptyHistogram 0) (emptyHistogram 0) (emptyHistogram 0)).blue_.getD 0 0
        = (emptyHistogram 0).blue_.getD 0 0 + (emptyHistogram 0).blue_.getD 0 0 ∧
       (emptyHistogram 0).blue_.getD 0 0 + (emptyHistogram 0).blue_.getD 0 0 < 2147483648) ∧
      ((HistogramAdd false (emptyHistogram 0) (emptyHistogram 0) (emptyHistogram 0)).alpha_.getD 0 0
        = (emptyHistogram 0).alpha_.getD 0 0 + (emptyHistogram 0).alpha_.getD 0 0 ∧
       (emptyHistogram 0).alpha_.getD 0 0 + (emptyHistogram 0).alpha_.getD 0 0 < 2147483648)) ∧
     (0 < NUM_DISTANCE_CODES →
      (HistogramAdd false (emptyHistogram 0) (emptyHistogram 0) (emptyHistogram 0)).distance_.getD 0 0
        = (emptyHistogram 0).distance_.getD 0 0 + (emptyHistogram 0).distance_.getD 0 0 ∧
      (emptyHistogram 0).distance_.getD 0 0 + (emptyHistogram 0).distance_.getD 0 0 < 2147483648)) :=
  ⟨⟨emptyHistogram_wf 0, emptyHistogram_bounded 0⟩,
   claim_C8_no_overflow (emptyHistogram 0) (emptyHistogram 0) (emptyHistogram 0) 0 0
     (emptyHistogram_wf 0) (emptyHistogram_wf 0) (emptyHistogram_wf 0)
     (emptyHistogram_bounded 0) (emptyHistogram_bounded 0)⟩
end WebP
